import Mathlib

/-!
Verification of the traffic-mirroring core of `DomainMirrorV5.py`
(BurpDomainMirror).

The Python source is shallowly embedded: Python strings become `List Char`,
Python dictionaries with insertion order become association lists, the
mutable domain registry becomes explicit state passing over `List DomainEntry`,
and the GUI/transport collaborators become explicit parameters.  Every
definition is translated directly from the function of the source file named
in its doc comment.
-/

namespace DomainMirror

/-- Python strings are modelled as lists of characters. -/
abbrev Str := List Char

/-- Coercion from Lean string literals to the `Str` model. -/
def str (s : String) : Str := s.data

/-- Python `s.lower()` (per-character lowering, which agrees with CPython on
the ASCII header material this program manipulates). -/
def toLowerStr (s : Str) : Str := s.map Char.toLower

/-- Characters removed by Python `str.strip()` with no argument. -/
def isPySpace (c : Char) : Bool :=
  c = ' ' || c = '\t' || c = '\n' || c = '\r' || c = '\x0b' || c = '\x0c'

/-- Python `s.strip()`: drop whitespace from both ends. -/
def pyStrip (s : Str) : Str :=
  ((s.dropWhile isPySpace).reverse.dropWhile isPySpace).reverse

/-- Python `pat in s` (substring containment). -/
def strIn (pat : Str) : Str → Bool
  | [] => decide (pat = [])
  | c :: t => pat.isPrefixOf (c :: t) || strIn pat t

/-- Recursion worker for `replaceAll`, structurally recursive on a fuel
argument so that it evaluates inside the kernel.  One unit of fuel is spent
per character of remaining input, and each step consumes at least one
character, so fuel equal to the input length never runs out. -/
def replaceAllFuel (pat repl : Str) : Nat → Str → Str
  | _, [] => []
  | 0, s => s
  | fuel + 1, c :: t =>
    if pat.isPrefixOf (c :: t) then
      repl ++ replaceAllFuel pat repl fuel ((c :: t).drop pat.length)
    else
      c :: replaceAllFuel pat repl fuel t

/-- Python `s.replace(pat, repl)`: replace every non-overlapping occurrence,
scanning left to right.  The program only calls it with non-empty literal
patterns, so the empty-pattern guard (identity) is never exercised. -/
def replaceAll (pat repl : Str) (s : Str) : Str :=
  if pat = [] then s else replaceAllFuel pat repl s.length s

/-- Python `s.split("/")[0]`: the part of `s` before the first `'/'`
(the whole of `s` when it has none). -/
def takeBeforeSlash (s : Str) : Str := s.takeWhile (fun c => c ≠ '/')

/-! ## Data model (§3 of the spec; dictionaries created in the source) -/

/-- Session status strings used by the source (`"waiting"`, `"capturing"`,
`"ready"`). -/
inductive SessionStatus where
  | waiting
  | capturing
  | ready
deriving DecidableEq, Repr

/-- The auth-mode constants `AUTH_AUTO`, `AUTH_COOKIES`, `AUTH_BEARER`,
`AUTH_BOTH`, `AUTH_NONE`, `AUTH_CUSTOM` of the source (lines 43-48). -/
inductive AuthMode where
  | auto
  | cookiesOnly
  | bearerOnly
  | both
  | noAuth
  | custom
deriving DecidableEq, Repr

/-- The per-domain session dictionary created by `_add_domain_entry`
(source lines 325-332).  Cookies are an insertion-ordered association list
with unique keys, mirroring a Python dict. -/
structure Session where
  cookies : List (Str × Str)
  bearer : Str
  refresh_token : Str
  token_expiry : Option Nat
  last_updated : Option Nat
  status : SessionStatus
deriving DecidableEq

/-- The empty session installed at entry creation (source lines 325-332). -/
def emptySession : Session :=
  { cookies := [], bearer := [], refresh_token := [],
    token_expiry := none, last_updated := none, status := .waiting }

/-- One tracked domain: the entry dictionary created by `_add_domain_entry`
(source lines 319-333). -/
structure DomainEntry where
  domain : Str
  is_primary : Bool
  auth_mode : AuthMode
  custom_header_name : Str
  custom_header_value : Str
  session : Session
deriving DecidableEq

instance : Inhabited DomainEntry :=
  ⟨{ domain := [], is_primary := false, auth_mode := .auto,
     custom_header_name := [], custom_header_value := [],
     session := emptySession }⟩

/-- The configuration handed to `_add_domain_entry` by the add dialog. -/
structure DomainConfig where
  domain : Str
  auth_mode : AuthMode
  custom_header_name : Str
  custom_header_value : Str
deriving DecidableEq

/-! ## Domain Registry (§4.1): `_add_domain_entry`, `_remove_domain`,
`_set_primary`, `_get_domain_entry` -/

/-- Domain normalization performed at the top of `_add_domain_entry`
(source lines 302-303):
`config["domain"].strip().lower().replace("https://", "").replace("http://", "").split("/")[0]`. -/
def normalizeDomain (s : Str) : Str :=
  takeBeforeSlash
    (replaceAll (str "http://") []
      (replaceAll (str "https://") []
        (toLowerStr (pyStrip s))))

/-- Observable outcome of `_add_domain_entry`: entry added, duplicate dialog
shown, or silent return on an empty normalized domain. -/
inductive AddOutcome where
  | added
  | duplicateDomain
  | ignoredEmpty
deriving DecidableEq, Repr

/-- `_add_domain_entry` (source lines 300-339): normalize the domain, return
silently if it is empty, report a duplicate if an entry with the same
normalized domain exists, otherwise append a fresh entry which is primary
iff the registry was empty. -/
def add_domain_entry (config : DomainConfig) (domains : List DomainEntry) :
    List DomainEntry × AddOutcome :=
  let domain := normalizeDomain config.domain
  if domain = [] then (domains, .ignoredEmpty)
  else if domains.any (fun e => e.domain = domain) then (domains, .duplicateDomain)
  else
    (domains ++
      [{ domain := domain,
         is_primary := domains.isEmpty,
         auth_mode := config.auth_mode,
         custom_header_name := config.custom_header_name,
         custom_header_value := config.custom_header_value,
         session := emptySession }],
     .added)

/-- Removal of the element at an index, returning it: `self.domains.remove(row)`
for a Java `ArrayList` (source line 349). -/
def removeAt : Nat → List DomainEntry → Option DomainEntry × List DomainEntry
  | _, [] => (none, [])
  | 0, e :: t => (some e, t)
  | n + 1, e :: t =>
    let (r, t') := removeAt n t
    (r, e :: t')

/-- `self.domains.get(0)["is_primary"] = True` (source line 353). -/
def promoteHead : List DomainEntry → List DomainEntry
  | [] => []
  | e :: t => { e with is_primary := true } :: t

/-- `_remove_domain` (source lines 341-355): a negative selected row is a
no-op; otherwise the row is removed when in bounds, and if the removed entry
was primary and entries remain, the first remaining entry is promoted. -/
def remove_domain (row : Int) (domains : List DomainEntry) : List DomainEntry :=
  if row < 0 then domains
  else
    match removeAt row.toNat domains with
    | (none, _) => domains
    | (some removed, rest) =>
      if removed.is_primary && !rest.isEmpty then promoteHead rest else rest

/-- Set `is_primary := false` on every entry (the `i ≠ row` branch of the
loop in `_set_primary`, source line 365). -/
def clearPrimaries (domains : List DomainEntry) : List DomainEntry :=
  domains.map (fun e => { e with is_primary := false })

/-- The loop of `_set_primary` (source lines 364-365):
`for i in range(size): domains.get(i)["is_primary"] = (i == row)`. -/
def setPrimaryList : Nat → List DomainEntry → List DomainEntry
  | _, [] => []
  | 0, e :: t => { e with is_primary := true } :: clearPrimaries t
  | n + 1, e :: t => { e with is_primary := false } :: setPrimaryList n t

/-- `_set_primary` (source lines 357-367): a negative selected row (no
selection, the only way the target can be missing) returns with no state
change; otherwise every entry's `is_primary` becomes `i == row`. -/
def set_primary (row : Int) (domains : List DomainEntry) : List DomainEntry :=
  if row < 0 then domains else setPrimaryList row.toNat domains

/-- `_get_domain_entry` (source lines 2179-2208): first entry, in iteration
order, whose domain equals the host or for which the host ends with
`"." + domain`; `none` when no entry matches. -/
def get_domain_entry (host : Str) : List DomainEntry → Option DomainEntry
  | [] => none
  | e :: t =>
    if e.domain = host then some e
    else if ('.' :: e.domain).isSuffixOf host then some e
    else get_domain_entry host t

/-- Number of entries currently flagged primary. -/
def primaryCount (domains : List DomainEntry) : Nat :=
  domains.countP (fun e => e.is_primary)

/-- The Registry invariant of §3/§8: at most one primary, exactly one when
non-empty. -/
def registryInv (domains : List DomainEntry) : Prop :=
  primaryCount domains ≤ 1 ∧ (domains ≠ [] → primaryCount domains = 1)

/-- One user-level Registry operation.  `remove` and `setPrimary` carry the
selected table row exactly as the source reads it from
`getSelectedRow()` (-1 when nothing is selected). -/
inductive RegistryOp where
  | add (config : DomainConfig)
  | remove (row : Int)
  | setPrimary (row : Int)

/-- Apply one operation to the registry state. -/
def applyOp : RegistryOp → List DomainEntry → List DomainEntry
  | .add c, ds => (add_domain_entry c ds).1
  | .remove r, ds => remove_domain r ds
  | .setPrimary r, ds => set_primary r ds

/-- A selected row handed to `_set_primary` comes from the domain table,
whose row count equals the registry size, so it is either -1 (no selection)
or a valid index.  `add` and `remove` are unconstrained (`_remove_domain`
bounds-checks internally). -/
def opValid : RegistryOp → List DomainEntry → Bool
  | .setPrimary r, ds => decide (r < 0) || decide (r.toNat < ds.length)
  | _, _ => true

/-- Validity of a whole operation sequence, checked against the evolving
state. -/
def validTrace : List RegistryOp → List DomainEntry → Bool
  | [], _ => true
  | op :: ops, ds => opValid op ds && validTrace ops (applyOp op ds)

/-- Run a sequence of operations. -/
def runOps (ops : List RegistryOp) (ds : List DomainEntry) : List DomainEntry :=
  ops.foldl (fun s op => applyOp op s) ds

/-! ## Session Capture Engine (§4.2): `_update_session_status` -/

/-- `_update_session_status` (source lines 2337-2361), returning the status
the source stores into `session["status"]`.  `has_cookies`/`has_bearer` are
Python truthiness of the cookie dict and bearer string. -/
def update_session_status (session : Session) (auth_mode : AuthMode) : SessionStatus :=
  let has_cookies := !session.cookies.isEmpty
  let has_bearer := !session.bearer.isEmpty
  match auth_mode with
  | .auto => if has_bearer || has_cookies then .ready else .waiting
  | .cookiesOnly =>
    if has_cookies then .ready else if has_bearer then .capturing else .waiting
  | .bearerOnly =>
    if has_bearer then .ready else if has_cookies then .capturing else .waiting
  | .both =>
    if has_cookies && has_bearer then .ready
    else if has_cookies || has_bearer then .capturing
    else .waiting
  | .custom => .ready
  | .noAuth => .ready

/-! ## Result Store (§3 ResultStore; source function `_add_result`) -/

/-- The `while self.results.size() >= self._max_results: self.results.remove(0)`
loop of `_add_result` (source lines 1873-1874): drop oldest entries until the
size is below the limit. -/
def evictOldest (max_results : Nat) : List α → List α
  | [] => []
  | x :: xs =>
    if (x :: xs).length ≥ max_results then evictOldest max_results xs else x :: xs

/-- `_add_result` (source lines 1869-1875): evict oldest entries while at or
above the limit, then append the new result. -/
def add_result (max_results : Nat) (results : List α) (r : α) : List α :=
  evictOldest max_results results ++ [r]

/-- The settings clamp for the stored-results limit (source lines 1738-1743):
values below 10 become 10, values above 100000 become 100000. -/
def clampMaxResults (n : Int) : Int :=
  if n < 10 then 10 else if n > 100000 then 100000 else n

/-! ## Mirror Dispatcher concurrency (§4.4): `_can_start_mirror_thread` -/

/-- `_can_start_mirror_thread` (source lines 1909-1915): refuse when the
active count has reached the maximum, otherwise increment it.  Returns the
decision and the new active count. -/
def can_start_mirror_thread (active max_concurrent : Nat) : Bool × Nat :=
  if active ≥ max_concurrent then (false, active) else (true, active + 1)

/-- `_mirror_thread_finished` (source lines 1917-1920):
`active = max(0, active - 1)`, which on naturals is truncated subtraction. -/
def mirror_thread_finished (active : Nat) : Nat := active - 1

/-- The dispatch step of `processProxyMessage` (source lines 1988-2050) as a
function of the mirror snapshot and the active-thread count: when mirrors
exist, a single permit is requested via `_can_start_mirror_thread`; on
refusal the whole exchange is skipped with a warning, on success one thread
is started that handles every mirror in the snapshot.  Returns the list of
mirrors actually dispatched and the new active count. -/
def dispatch_exchange (active max_concurrent : Nat) (mirrors : List Str) :
    List Str × Nat :=
  if mirrors.isEmpty then ([], active)
  else
    match can_start_mirror_thread active max_concurrent with
    | (false, a) => ([], a)
    | (true, a) => (mirrors, a)

/-- Modelled from the spec claim's words, for comparison: permit acquisition
per mirror domain, where a mirror finding no free permit is skipped and
dispatch continues with the remaining mirrors. -/
def claimPerMirrorDispatch (active max_concurrent : Nat) :
    List Str → List Str × Nat
  | [] => ([], active)
  | m :: t =>
    if active ≥ max_concurrent then claimPerMirrorDispatch active max_concurrent t
    else
      let (d, a') := claimPerMirrorDispatch (active + 1) max_concurrent t
      (m :: d, a')

/-! ## Request Rewriter (§4.3): `_build_mirrored_request` -/

/-- Python `s.split(sep, 1)` restricted to its success information: the text
before the first occurrence of `sep` and the text after it, or `none` when
`sep` does not occur (`sep` empty splits at the front). -/
def splitOnceSub (sep : Str) : Str → Option (Str × Str)
  | [] => if sep.isEmpty then some ([], []) else none
  | c :: t =>
    if sep.isPrefixOf (c :: t) then some ([], (c :: t).drop sep.length)
    else (splitOnceSub sep t).map (fun p => (c :: p.1, p.2))

theorem splitOnceSub_some_length (sep : Str) (hsep : sep ≠ []) :
    ∀ s a b, splitOnceSub sep s = some (a, b) → b.length + 1 ≤ s.length := by
  intro s
  induction s with
  | nil =>
    intro a b h
    simp only [splitOnceSub, List.isEmpty_iff] at h
    split at h
    · exact absurd (by assumption) hsep
    · exact absurd h (by simp)
  | cons c t ih =>
    intro a b h
    simp only [splitOnceSub] at h
    split at h
    · have hb : b = (c :: t).drop sep.length := by
        injection h with h1
        injection h1 with _ hb
        exact hb.symm
      subst hb
      have hlen : 1 ≤ sep.length := by
        cases sep with
        | nil => exact absurd rfl hsep
        | cons x l => simp
      simp only [List.length_drop, List.length_cons]
      omega
    · cases hsplit : splitOnceSub sep t with
      | none => rw [hsplit] at h; exact Option.noConfusion h
      | some p =>
        rw [hsplit, Option.map_some'] at h
        have hb : b = p.2 := by
          injection h with h1
          injection h1 with _ hb
          exact hb.symm
        have := ih p.1 p.2 (by rw [hsplit])
        subst hb
        simp only [List.length_cons]
        omega

/-- Recursion worker for `splitAllSub`, structurally recursive on a fuel
argument so that it evaluates inside the kernel.  For a non-empty separator,
`splitOnceSub` strictly shrinks the remaining text
(`splitOnceSub_some_length`), so fuel equal to the input length never runs
out. -/
def splitAllFuel (sep : Str) : Nat → Str → List Str
  | 0, s => [s]
  | fuel + 1, s =>
    match splitOnceSub sep s with
    | none => [s]
    | some (a, b) => a :: splitAllFuel sep fuel b

/-- Python `s.split(sep)` for a non-empty separator (an empty separator is a
`ValueError` in Python; the program always passes literal line separators). -/
def splitAllSub (sep : Str) (s : Str) : List Str :=
  if sep = [] then [s] else splitAllFuel sep (s.length + 1) s

/-- Python `sep.join(xs)`. -/
def joinSep (sep : Str) : List Str → Str
  | [] => []
  | [x] => x
  | x :: y :: t => x ++ sep ++ joinSep sep (y :: t)

/-- The header/body split at the top of `_build_mirrored_request`
(source lines 2625-2634): split once on `"\r\n\r\n"`, else once on `"\n\n"`,
else the whole text is headers.  Returns (header section, body, line
separator). -/
def splitReqSections (request_str : Str) : Str × Str × Str :=
  match splitOnceSub (str "\r\n\r\n") request_str with
  | some (h, b) => (h, b, str "\r\n")
  | none =>
    match splitOnceSub (str "\n\n") request_str with
    | some (h, b) => (h, b, str "\n")
    | none => (request_str, [], str "\r\n")

/-- The membership test `auth_mode in [AUTH_AUTO, AUTH_BEARER, AUTH_BOTH]`
used by capture, rewrite and append logic. -/
def bearerInScope (m : AuthMode) : Bool :=
  m = .auto || m = .bearerOnly || m = .both

/-- The membership test `auth_mode in [AUTH_AUTO, AUTH_COOKIES, AUTH_BOTH]`. -/
def cookiesInScope (m : AuthMode) : Bool :=
  m = .auto || m = .cookiesOnly || m = .both

/-- Serialization of the target's cookie dict
(source line 2681): `"; ".join(k + "=" + v ...)`. -/
def cookieHeaderValue (cookies : List (Str × Str)) : Str :=
  joinSep (str "; ") (cookies.map (fun kv => kv.1 ++ str "=" ++ kv.2))

/-- The loop-prevention marker header appended by `_build_mirrored_request`
(source line 2726) and tested literally by `processHttpMessage`
(source lines 2079 and 2109). -/
def markerHeader : Str := str "X-DomainMirror-Internal: true"

/-- The header loop body of `_build_mirrored_request` for indices `i ≥ 1`
(source lines 2662-2702), processed left to right.  Returns the rewritten
headers together with the `has_auth` and `has_cookie` flags. -/
def rewriteLoop (e : DomainEntry) : List Str → List Str × Bool × Bool
  | [] => ([], false, false)
  | h :: t =>
    let lr := rewriteLoop e t
    if (str "host:").isPrefixOf (toLowerStr h) then
      ((str "Host: " ++ e.domain) :: lr.1, lr.2.1, lr.2.2)
    else if (str "authorization:").isPrefixOf (toLowerStr h) then
      let emitted :=
        if bearerInScope e.auth_mode && !e.session.bearer.isEmpty then
          [str "Authorization: Bearer " ++ e.session.bearer]
        else if e.auth_mode = .noAuth then []
        else if e.auth_mode = .cookiesOnly then []
        else [h]
      (emitted ++ lr.1, true, lr.2.2)
    else if (str "cookie:").isPrefixOf (toLowerStr h) then
      let emitted :=
        if cookiesInScope e.auth_mode && !e.session.cookies.isEmpty then
          [str "Cookie: " ++ cookieHeaderValue e.session.cookies]
        else if e.auth_mode = .noAuth then []
        else if e.auth_mode = .bearerOnly then []
        else [h]
      (emitted ++ lr.1, lr.2.1, true)
    else if (toLowerStr e.custom_header_name ++ [':']).isPrefixOf (toLowerStr h) then
      let emitted :=
        if e.auth_mode = .custom && !e.custom_header_value.isEmpty then
          [e.custom_header_name ++ str ": " ++ e.custom_header_value]
        else [h]
      (emitted ++ lr.1, lr.2.1, lr.2.2)
    else
      (h :: lr.1, lr.2.1, lr.2.2)

/-- `_build_mirrored_request` (source lines 2617-2728): split the request,
rewrite each header after the request line, append bearer/cookie headers
that are required by the mode but were absent, append the custom header when
configured and not already present, and always append the internal marker
header last.  Returns the new header list and the body. -/
def build_mirrored_request (request_str : Str) (e : DomainEntry) :
    List Str × Str :=
  let sections := splitReqSections request_str
  let headers := splitAllSub sections.2.2 sections.1
  match headers with
  | [] => ([markerHeader], sections.2.1)
  | first :: rest =>
    let lr := rewriteLoop e rest
    let has_auth := lr.2.1
    let has_cookie := lr.2.2
    let nh0 := first :: lr.1
    let nh1 :=
      if bearerInScope e.auth_mode && !has_auth && !e.session.bearer.isEmpty then
        nh0 ++ [str "Authorization: Bearer " ++ e.session.bearer]
      else nh0
    let nh2 :=
      if cookiesInScope e.auth_mode && !has_cookie && !e.session.cookies.isEmpty then
        nh1 ++ [str "Cookie: " ++ cookieHeaderValue e.session.cookies]
      else nh1
    let nh3 :=
      if e.auth_mode = .custom && !e.custom_header_name.isEmpty
          && !e.custom_header_value.isEmpty then
        if nh2.any (fun h =>
            (toLowerStr e.custom_header_name ++ [':']).isPrefixOf (toLowerStr h)) then
          nh2
        else nh2 ++ [e.custom_header_name ++ str ": " ++ e.custom_header_value]
      else nh2
    (nh3 ++ [markerHeader], sections.2.1)

/-- Serialization contract of the external Burp helper `buildHttpMessage`
(headers joined by CRLF, a blank line, then the body), used to relate the
built header list to the raw request text later observed by the listeners. -/
def buildHttpMessage (headers : List Str) (body : Str) : Str :=
  joinSep (str "\r\n") headers ++ str "\r\n\r\n" ++ body

/-! ## HTTP listener (`processHttpMessage`, source lines 2067-2149) -/

/-- The dispatch decision of `processHttpMessage` as a function of its
inputs: requests never dispatch (and a request carrying the marker returns
immediately, source lines 2074-2082); a response dispatches a mirror thread
only if the tool is a configured trigger, mirroring is enabled, the entry is
primary, mirrors exist, both byte streams are present, the originating
request does not contain the marker literal (source lines 2106-2110), and a
concurrency permit is granted (source line 2132). -/
def processHttpMessage_dispatches (messageIsRequest : Bool) (request_str : Str)
    (entry : Option DomainEntry) (should_mirror mirror_enabled : Bool)
    (mirrors : List DomainEntry) (request_present response_present : Bool)
    (can_start : Bool) : Bool :=
  if messageIsRequest then false
  else
    match entry with
    | none => false
    | some e =>
      if should_mirror && mirror_enabled && e.is_primary then
        if mirrors.isEmpty then false
        else if !(request_present && response_present) then false
        else if strIn markerHeader request_str then false
        else can_start
      else false

/-! ## Mirror Dispatcher result assembly (`_mirror_request_v2`,
source lines 2730-2881) -/

/-- Outcome of one `_make_request_with_timeout` call for one mirror
(source lines 2811-2825): an error string (timeout or transport failure), a
missing response object, an empty response byte string, or a response with a
status code and body. -/
inductive TransportOutcome where
  | transportError (msg : Str)
  | noResponseObj
  | emptyResponse
  | success (status : Nat) (body : Str)
deriving DecidableEq

/-- Whether a transport outcome delivered a usable response. -/
def TransportOutcome.isSuccess : TransportOutcome → Bool
  | .success _ _ => true
  | _ => false

/-- The per-domain response record stored into `result["responses"]`
(source lines 2771-2776 and 2835-2840). -/
structure ResponseRecord where
  hash : Str
  status : Nat
  size : Nat
  body : Str
deriving DecidableEq

/-- The result dictionary assembled by `_mirror_request_v2`
(source lines 2765-2778).  The Python key `match` is named `matchField`
here because `match` is a Lean keyword; `responses` keeps Python dict
insertion order. -/
structure MirrorResult where
  method : Str
  path : Str
  matchField : Bool
  responses : List (Str × ResponseRecord)
deriving DecidableEq

/-- Python dict assignment `responses[k] = v`: overwrite in place when the
key exists, else append. -/
def dictInsert (k : Str) (v : ResponseRecord)
    (m : List (Str × ResponseRecord)) : List (Str × ResponseRecord) :=
  if m.any (fun p => p.1 = k) then
    m.map (fun p => if p.1 = k then (k, v) else p)
  else m ++ [(k, v)]

/-- The mirror loop of `_mirror_request_v2` (source lines 2786-2859): each
successful transport outcome contributes a response record and a hash; every
failure (`error`, missing response object, empty response) just logs and
continues with the next mirror.  (`_build_mirrored_request` always returns a
message, so its `None` guard never fires.) -/
def mirrorLoop (hash : Str → Str) :
    List (DomainEntry × TransportOutcome) → List (Str × ResponseRecord) →
    List Str → List (Str × ResponseRecord) × List Str
  | [], responses, hashes => (responses, hashes)
  | (entry, outcome) :: rest, responses, hashes =>
    match outcome with
    | .success status body =>
      mirrorLoop hash rest
        (dictInsert entry.domain
          { hash := hash body, status := status, size := body.length, body := body }
          responses)
        (hashes ++ [hash body])
    | _ => mirrorLoop hash rest responses hashes

/-- `_mirror_request_v2` (source lines 2730-2881) with the transport
abstracted: `hash` stands for the MD5 hex digest, `mirrors` pairs each
mirror entry with its transport outcome.  Returns `none` when the path
matches a refresh pattern (source lines 2753-2755), otherwise the assembled
`MirrorResult` whose `match` field is `len(set(hashes)) == 1`
(source line 2862). -/
def mirror_request_v2 (hash : Str → Str) (refresh_patterns : List Str)
    (primary_host method path : Str) (primary_status : Nat) (primary_body : Str)
    (mirrors : List (DomainEntry × TransportOutcome)) : Option MirrorResult :=
  if refresh_patterns.any (fun p => strIn p (toLowerStr path)) then none
  else
    let primary_hash := hash primary_body
    let primaryRec : ResponseRecord :=
      { hash := primary_hash, status := primary_status,
        size := primary_body.length, body := primary_body }
    let state := mirrorLoop hash mirrors [(primary_host, primaryRec)] [primary_hash]
    some { method := method, path := path,
           matchField := decide (state.2.dedup.length = 1),
           responses := state.1 }

/-! ## Sample data used by concrete parts of the claims -/

/-- A registry entry for `example.com`, used by the concrete lookup facts of
§8 of the spec. -/
def sampleExampleEntry : DomainEntry :=
  { domain := str "example.com", is_primary := true, auth_mode := .auto,
    custom_header_name := [], custom_header_value := [], session := emptySession }

/-! ## Helper lemmas -/

theorem evictOldest_eq_drop {α : Type} (max_results : Nat)
    (h : 1 ≤ max_results) :
    ∀ rs : List α, evictOldest max_results rs = rs.drop (rs.length + 1 - max_results) := by
  intro rs
  induction rs with
  | nil => simp [evictOldest]
  | cons x xs ih =>
    by_cases hge : (x :: xs).length ≥ max_results
    · rw [evictOldest, if_pos hge, ih]
      have hx : xs.length + 1 + 1 - max_results = (xs.length + 1 - max_results) + 1 := by
        simp only [List.length_cons] at hge
        omega
      simp only [List.length_cons, hx, List.drop_succ_cons]
    · rw [evictOldest, if_neg hge]
      simp only [List.length_cons] at hge
      have hx : xs.length + 1 + 1 - max_results = 0 := by omega
      simp [hx]

/-! ## Claim theorems -/

/-- C9.  The session-status recompute is a pure function of the session
contents and auth mode following the table of §4.2: for `Both` the status is
`ready` iff both cookies and bearer are non-empty, `capturing` iff exactly
one is present, `waiting` iff neither; for `Auto`, `ready` iff bearer or
cookies present, else `waiting`; for `CookiesOnly`/`BearerOnly`, `ready`
when the in-scope credential is present, `capturing` when only the other is
present, else `waiting`; for `CustomHeader` and `None`, always `ready`. -/
theorem update_session_status_table (s : Session) :
    (update_session_status s .both = .ready ↔ (s.cookies ≠ [] ∧ s.bearer ≠ [])) ∧
    (update_session_status s .both = .capturing ↔
      ((s.cookies ≠ [] ∧ s.bearer = []) ∨ (s.cookies = [] ∧ s.bearer ≠ []))) ∧
    (update_session_status s .both = .waiting ↔ (s.cookies = [] ∧ s.bearer = [])) ∧
    (update_session_status s .auto = .ready ↔ (s.bearer ≠ [] ∨ s.cookies ≠ [])) ∧
    (update_session_status s .auto = .waiting ↔ (s.bearer = [] ∧ s.cookies = [])) ∧
    (update_session_status s .cookiesOnly = .ready ↔ s.cookies ≠ []) ∧
    (update_session_status s .cookiesOnly = .capturing ↔
      (s.bearer ≠ [] ∧ s.cookies = [])) ∧
    (update_session_status s .cookiesOnly = .waiting ↔
      (s.cookies = [] ∧ s.bearer = [])) ∧
    (update_session_status s .bearerOnly = .ready ↔ s.bearer ≠ []) ∧
    (update_session_status s .bearerOnly = .capturing ↔
      (s.cookies ≠ [] ∧ s.bearer = [])) ∧
    (update_session_status s .bearerOnly = .waiting ↔
      (s.cookies = [] ∧ s.bearer = [])) ∧
    (update_session_status s .custom = .ready) ∧
    (update_session_status s .noAuth = .ready) := by
  by_cases hc : s.cookies = [] <;> by_cases hb : s.bearer = [] <;>
    simp [update_session_status, hc, hb, List.isEmpty_iff]

/-- C7.  `_get_domain_entry` returns the first entry, in iteration order,
whose domain equals the host exactly or for which the host ends with `"."`
followed by the domain, and `none` when no entry matches; in particular
`api.example.com` matches an entry for `example.com` while
`notexample.com` does not. -/
theorem get_domain_entry_first_match :
    (∀ (host : Str) (ds : List DomainEntry),
      get_domain_entry host ds =
        ds.find? (fun e => decide (e.domain = host) || ('.' :: e.domain).isSuffixOf host)) ∧
    get_domain_entry (str "api.example.com") [sampleExampleEntry] = some sampleExampleEntry ∧
    get_domain_entry (str "notexample.com") [sampleExampleEntry] = none := by
  refine ⟨fun host ds => ?_, by decide, by decide⟩
  induction ds with
  | nil => simp [get_domain_entry]
  | cons e t ih =>
    by_cases h1 : e.domain = host
    · rw [get_domain_entry, if_pos h1, List.find?_cons_of_pos]
      simp [h1]
    · by_cases h2 : ('.' :: e.domain).isSuffixOf host = true
      · rw [get_domain_entry, if_neg h1, if_pos h2, List.find?_cons_of_pos]
        simp [h2]
      · rw [get_domain_entry, if_neg h1, if_neg h2, List.find?_cons_of_neg, ih]
        simp [h1, h2]

/-- C4.  For every insertion into the result store and every configured
capacity (which the settings clamp keeps at 10 or more, hence at least 1),
the store's size never exceeds the capacity after the insertion, eviction is
oldest-first (the result is the input with a prefix dropped, followed by the
new element), and inserting when the store holds exactly the capacity
evicts exactly the oldest entry. -/
theorem add_result_bounded_fifo {α : Type} (max_results : Nat)
    (rs : List α) (r : α) (h : 1 ≤ max_results) :
    add_result max_results rs r = rs.drop (rs.length + 1 - max_results) ++ [r] ∧
    (add_result max_results rs r).length ≤ max_results ∧
    (rs.length = max_results → add_result max_results rs r = rs.tail ++ [r]) := by
  have hdrop := evictOldest_eq_drop max_results h rs
  refine ⟨by rw [add_result, hdrop], ?_, ?_⟩
  · rw [add_result, hdrop]
    simp only [List.length_append, List.length_drop, List.length_singleton]
    omega
  · intro hlen
    rw [add_result, hdrop, hlen]
    have hx : max_results + 1 - max_results = 1 := by omega
    rw [hx, List.drop_one]

/-- C4 witness: a concrete insertion at capacity 3 on a full store evicts
exactly the oldest element. -/
theorem add_result_bounded_fifo_witness :
    add_result 3 [10, 20, 30] 40 = [10, 20, 30].drop ([10, 20, 30].length + 1 - 3) ++ [40] ∧
    (add_result 3 [10, 20, 30] 40).length ≤ 3 ∧
    ([10, 20, 30].length = 3 → add_result 3 [10, 20, 30] 40 = [10, 20, 30].tail ++ [40]) :=
  add_result_bounded_fifo 3 [10, 20, 30] 40 (by decide)

/-- C6 counterexample.  The claim says a permit is acquired per mirror
domain and that exhaustion skips only that mirror.  In the code a single
permit is acquired per exchange: with a pool of maximum 1 and two mirrors,
the code dispatches both mirrors after one acquisition, whereas the
claimed per-mirror policy would dispatch only the first. -/
theorem dispatch_exchange_not_per_mirror :
    dispatch_exchange 0 1 [str "b.com", str "c.com"] = ([str "b.com", str "c.com"], 1) ∧
    claimPerMirrorDispatch 0 1 [str "b.com", str "c.com"] = ([str "b.com"], 1) ∧
    dispatch_exchange 0 1 [str "b.com", str "c.com"] ≠
      claimPerMirrorDispatch 0 1 [str "b.com", str "c.com"] := by
  decide

/-- C6 amended.  Permit acquisition is per exchange: one permit is acquired
from the fixed-size pool before the exchange's single mirror thread starts;
when no permit is available the entire exchange (all of its mirrors) is
skipped with a warning, never queued or retried; the active-thread count
never exceeds the configured maximum, and releasing a thread keeps it so. -/
theorem dispatch_exchange_per_exchange (active max_concurrent : Nat)
    (mirrors : List Str) (h : active ≤ max_concurrent) :
    (dispatch_exchange active max_concurrent mirrors).2 ≤ max_concurrent ∧
    (active ≥ max_concurrent ∨ mirrors = [] →
      dispatch_exchange active max_concurrent mirrors = ([], active)) ∧
    (active < max_concurrent → mirrors ≠ [] →
      dispatch_exchange active max_concurrent mirrors = (mirrors, active + 1)) ∧
    mirror_thread_finished (dispatch_exchange active max_concurrent mirrors).2 ≤
      max_concurrent := by
  by_cases hm : mirrors = []
  · subst hm
    refine ⟨by simp [dispatch_exchange, mirror_thread_finished]; omega, ?_, ?_, ?_⟩
    · intro _; simp [dispatch_exchange]
    · intro _ hne; exact absurd rfl hne
    · simp [dispatch_exchange, mirror_thread_finished]; omega
  · by_cases hge : active ≥ max_concurrent
    · have hd : dispatch_exchange active max_concurrent mirrors = ([], active) := by
        rw [dispatch_exchange, if_neg (by simpa [List.isEmpty_iff] using hm),
          can_start_mirror_thread, if_pos hge]
      refine ⟨by rw [hd]; exact h, fun _ => hd, ?_, ?_⟩
      · intro hlt; omega
      · rw [hd]; simp only [mirror_thread_finished]; omega
    · have hlt : active < max_concurrent := by omega
      have hd : dispatch_exchange active max_concurrent mirrors = (mirrors, active + 1) := by
        rw [dispatch_exchange, if_neg (by simpa [List.isEmpty_iff] using hm),
          can_start_mirror_thread, if_neg hge]
      refine ⟨by rw [hd]; omega, ?_, fun _ _ => hd, ?_⟩
      · intro hcase
        rcases hcase with hcase | hcase
        · omega
        · exact absurd hcase hm
      · rw [hd]; simp only [mirror_thread_finished]; omega

/-- C6 amended witness: with two active threads out of a maximum of two,
a two-mirror exchange is dropped whole, and with a free permit it is
dispatched whole on one permit. -/
theorem dispatch_exchange_per_exchange_witness :
    dispatch_exchange 2 2 [str "b.com", str "c.com"] = ([], 2) ∧
    dispatch_exchange 1 2 [str "b.com", str "c.com"] = ([str "b.com", str "c.com"], 2) :=
  ⟨(dispatch_exchange_per_exchange 2 2 [str "b.com", str "c.com"] (by decide)).2.1
      (Or.inl (by decide)),
   (dispatch_exchange_per_exchange 1 2 [str "b.com", str "c.com"] (by decide)).2.2.1
      (by decide) (by decide)⟩

/-- The normalization exactly as the C10 claim words it (for comparison
with the source's `normalizeDomain`): lowercase, strip a leading
`https://` or `http://` scheme, and discard everything from the first
slash. -/
def claimNormalize (s : Str) : Str :=
  let l := toLowerStr s
  let l2 :=
    if (str "https://").isPrefixOf l then l.drop (str "https://").length
    else if (str "http://").isPrefixOf l then l.drop (str "http://").length
    else l
  takeBeforeSlash l2

/-- C10 counterexample.  The source normalization removes every occurrence
of `https://`/`http://` (Python `str.replace`), not just a leading scheme:
on the input `xhttps://y` the code produces `xy`, while the claimed
prefix-stripping normalization produces `xhttps:`. -/
theorem normalizeDomain_counterexample :
    normalizeDomain (str "xhttps://y") = str "xy" ∧
    claimNormalize (str "xhttps://y") = str "xhttps:" ∧
    normalizeDomain (str "xhttps://y") ≠ claimNormalize (str "xhttps://y") := by
  decide

/-- C10 amended.  The add operation normalizes its domain input by trimming
surrounding whitespace, lowercasing, removing every occurrence of the
substrings `https://` and `http://`, and keeping only the part before the
first `/`; for every input whose normalized form is the empty string
(e.g. `https://` or `/path`), add returns without adding an entry, without
raising an error, and without reporting a duplicate — the registry is
unchanged. -/
theorem add_domain_entry_ignores_empty
    (config : DomainConfig) (ds : List DomainEntry)
    (h : normalizeDomain config.domain = []) :
    add_domain_entry config ds = (ds, .ignoredEmpty) ∧
    normalizeDomain (str "https://") = [] ∧
    normalizeDomain (str "/path") = [] := by
  refine ⟨?_, by decide, by decide⟩
  rw [add_domain_entry]
  simp [h]

/-- C10 amended witness: adding `https://` to a one-entry registry is a
silent no-op. -/
theorem add_domain_entry_ignores_empty_witness :
    add_domain_entry
        { domain := str "https://", auth_mode := .auto,
          custom_header_name := [], custom_header_value := [] }
        [sampleExampleEntry] =
      ([sampleExampleEntry], .ignoredEmpty) :=
  (add_domain_entry_ignores_empty
    { domain := str "https://", auth_mode := .auto,
      custom_header_name := [], custom_header_value := [] }
    [sampleExampleEntry] (by decide)).1

/-! ## Registry invariant lemmas (C1, C5) -/

theorem primaryCount_clearPrimaries (ds : List DomainEntry) :
    primaryCount (clearPrimaries ds) = 0 := by
  induction ds with
  | nil => rfl
  | cons e t ih => simpa [clearPrimaries, primaryCount, List.countP_cons] using ih

theorem length_clearPrimaries (ds : List DomainEntry) :
    (clearPrimaries ds).length = ds.length := by
  simp [clearPrimaries]

theorem length_setPrimaryList (n : Nat) (ds : List DomainEntry) :
    (setPrimaryList n ds).length = ds.length := by
  induction ds generalizing n with
  | nil => cases n <;> rfl
  | cons e t ih =>
    cases n with
    | zero => simp [setPrimaryList, length_clearPrimaries]
    | succ m => simp [setPrimaryList, ih]

theorem primaryCount_setPrimaryList (n : Nat) (ds : List DomainEntry)
    (h : n < ds.length) : primaryCount (setPrimaryList n ds) = 1 := by
  induction ds generalizing n with
  | nil => simp at h
  | cons e t ih =>
    cases n with
    | zero =>
      show primaryCount ({ e with is_primary := true } :: clearPrimaries t) = 1
      have h0 := primaryCount_clearPrimaries t
      simp only [primaryCount, List.countP_cons] at h0 ⊢
      simp [h0]
    | succ m =>
      have hm : m < t.length := by simpa using h
      have ihm := ih m hm
      show primaryCount ({ e with is_primary := false } :: setPrimaryList m t) = 1
      simp only [primaryCount, List.countP_cons] at ihm ⊢
      simp [ihm]

theorem removeAt_none (n : Nat) (ds rest : List DomainEntry)
    (h : removeAt n ds = (none, rest)) : rest = ds := by
  induction ds generalizing n rest with
  | nil =>
    cases n <;> simp only [removeAt, Prod.mk.injEq] at h <;> exact h.2.symm
  | cons e t ih =>
    cases n with
    | zero => simp [removeAt] at h
    | succ m =>
      simp only [removeAt, Prod.mk.injEq] at h
      obtain ⟨h1, h2⟩ := h
      have ht : (removeAt m t).2 = t :=
        ih m (removeAt m t).2 (by rw [← h1])
      rw [← h2, ht]

theorem removeAt_some (n : Nat) (ds : List DomainEntry) :
    ∀ removed rest, removeAt n ds = (some removed, rest) →
      primaryCount rest + (if removed.is_primary then 1 else 0) = primaryCount ds ∧
      rest.length + 1 = ds.length := by
  induction ds generalizing n with
  | nil => intro removed rest h; cases n <;> simp [removeAt] at h
  | cons e t ih =>
    intro removed rest h
    cases n with
    | zero =>
      simp only [removeAt, Prod.mk.injEq, Option.some.injEq] at h
      obtain ⟨he, ht⟩ := h
      subst he; subst ht
      exact ⟨by simp [primaryCount, List.countP_cons], by simp⟩
    | succ m =>
      simp only [removeAt, Prod.mk.injEq] at h
      obtain ⟨h1, h2⟩ := h
      have hrec := ih m removed (removeAt m t).2 (by rw [← h1])
      subst h2
      constructor
      · have hc := hrec.1
        simp only [primaryCount, List.countP_cons] at hc ⊢
        omega
      · have hl := hrec.2
        simp only [List.length_cons]
        omega

theorem primaryCount_append_single (ds : List DomainEntry) (e : DomainEntry) :
    primaryCount (ds ++ [e]) =
      primaryCount ds + (if e.is_primary then 1 else 0) := by
  simp [primaryCount, List.countP_append, List.countP_cons]

/-- Invariant preservation by `_add_domain_entry`. -/
theorem registryInv_add (c : DomainConfig) (ds : List DomainEntry)
    (h : registryInv ds) : registryInv (add_domain_entry c ds).1 := by
  by_cases h1 : normalizeDomain c.domain = []
  · have hres : (add_domain_entry c ds).1 = ds := by
      simp only [add_domain_entry, if_pos h1]
    rw [hres]; exact h
  · by_cases h2 : (ds.any fun e => e.domain = normalizeDomain c.domain) = true
    · have hres : (add_domain_entry c ds).1 = ds := by
        simp only [add_domain_entry, if_neg h1, if_pos h2]
      rw [hres]; exact h
    · have hres : (add_domain_entry c ds).1 = ds ++
          [{ domain := normalizeDomain c.domain,
             is_primary := ds.isEmpty,
             auth_mode := c.auth_mode,
             custom_header_name := c.custom_header_name,
             custom_header_value := c.custom_header_value,
             session := emptySession }] := by
        simp only [add_domain_entry, if_neg h1, if_neg h2]
      rw [hres, ]
      cases ds with
      | nil =>
        refine ⟨?_, fun _ => ?_⟩ <;>
          simp [primaryCount, List.countP_cons, List.isEmpty_nil]
      | cons e0 t0 =>
        have hone : primaryCount (e0 :: t0) = 1 := h.2 (by simp)
        have hq : primaryCount ((e0 :: t0) ++
            [{ domain := normalizeDomain c.domain,
               is_primary := (e0 :: t0).isEmpty,
               auth_mode := c.auth_mode,
               custom_header_name := c.custom_header_name,
               custom_header_value := c.custom_header_value,
               session := emptySession }]) = primaryCount (e0 :: t0) := by
          rw [primaryCount_append_single]
          simp
        exact ⟨by rw [hq]; omega, fun _ => by rw [hq]; omega⟩

/-- Invariant preservation by `_remove_domain`, for any selected row. -/
theorem registryInv_remove (row : Int) (ds : List DomainEntry)
    (h : registryInv ds) : registryInv (remove_domain row ds) := by
  by_cases hneg : row < 0
  · have hred : remove_domain row ds = ds := by rw [remove_domain, if_pos hneg]
    rw [hred]; exact h
  · cases hra : removeAt row.toNat ds with
    | mk r rest =>
      cases r with
      | none =>
        have hred : remove_domain row ds = ds := by
          rw [remove_domain, if_neg hneg, hra]
        rw [hred]; exact h
      | some removed =>
        have hred : remove_domain row ds =
            if removed.is_primary && !rest.isEmpty then promoteHead rest else rest := by
          rw [remove_domain, if_neg hneg, hra]
        rw [hred]
        have hs := removeAt_some row.toNat ds removed rest hra
        have hdsne : ds ≠ [] := by
          intro hx
          subst hx
          cases hn : row.toNat <;> rw [hn] at hra <;>
            simp only [removeAt, Prod.mk.injEq] at hra <;>
            exact Option.noConfusion hra.1
        have hone : primaryCount ds = 1 := h.2 hdsne
        cases rest with
        | nil =>
          have hval : ∀ b : Bool,
              (if b then promoteHead ([] : List DomainEntry) else []) = [] := by
            intro b; cases b <;> rfl
          rw [hval]
          exact ⟨by simp [primaryCount], fun hx => absurd rfl hx⟩
        | cons e2 t2 =>
          rcases Bool.eq_false_or_eq_true removed.is_primary with hp | hp
          · have hres2 : (if removed.is_primary && !(e2 :: t2).isEmpty
                then promoteHead (e2 :: t2) else (e2 :: t2)) =
                { e2 with is_primary := true } :: t2 := by
              rw [hp]; rfl
            rw [hres2]
            have hz : primaryCount (e2 :: t2) = 0 := by
              have hh := hs.1
              rw [hp] at hh
              simp only [if_true, ite_true, if_pos] at hh
              omega
            simp only [primaryCount, List.countP_cons] at hz
            have hcp : primaryCount ({ e2 with is_primary := true } :: t2) =
                List.countP (fun e => e.is_primary) t2 + 1 := by
              simp [primaryCount, List.countP_cons]
            exact ⟨by rw [hcp]; omega, fun _ => by rw [hcp]; omega⟩
          · have hres2 : (if removed.is_primary && !(e2 :: t2).isEmpty
                then promoteHead (e2 :: t2) else (e2 :: t2)) = e2 :: t2 := by
              rw [hp]; rfl
            rw [hres2]
            have hc : primaryCount (e2 :: t2) = 1 := by
              have hh := hs.1
              rw [hp] at hh
              simp only [Bool.false_eq_true, if_false, ite_false] at hh
              omega
            exact ⟨by omega, fun _ => hc⟩

/-- Invariant (re-)establishment by `_set_primary` on a valid selection. -/
theorem registryInv_set_primary (row : Int) (ds : List DomainEntry)
    (h : registryInv ds) (hv : row < 0 ∨ row.toNat < ds.length) :
    registryInv (set_primary row ds) := by
  rw [set_primary]
  by_cases hneg : row < 0
  · simpa [hneg] using h
  · simp only [hneg, if_false, ite_false]
    have hlt : row.toNat < ds.length := by
      rcases hv with hv | hv
      · exact absurd hv hneg
      · exact hv
    have hcount := primaryCount_setPrimaryList row.toNat ds hlt
    refine ⟨by omega, fun _ => hcount⟩

/-- C1.  For every valid sequence of add, remove, and setPrimary operations
starting from an empty registry (valid: each `setPrimary` row is a table
selection, i.e. -1 when nothing is selected or an index below the current
size), the registry has at most one entry with `is_primary = true`, and
exactly one such entry whenever the registry is non-empty.  The first entry
added becomes primary (`add_domain_entry`), removing the primary promotes
the first remaining entry (`remove_domain`), and `set_primary` sets exactly
the targeted entry. -/
theorem registry_primary_invariant (ops : List RegistryOp)
    (h : validTrace ops [] = true) : registryInv (runOps ops []) := by
  have general : ∀ (l : List RegistryOp) (ds : List DomainEntry),
      registryInv ds → validTrace l ds = true → registryInv (runOps l ds) := by
    intro l
    induction l with
    | nil => intro ds hinv _; exact hinv
    | cons op rest ih =>
      intro ds hinv hval
      rw [validTrace, Bool.and_eq_true] at hval
      have hstep : registryInv (applyOp op ds) := by
        cases op with
        | add c => exact registryInv_add c ds hinv
        | remove r => exact registryInv_remove r ds hinv
        | setPrimary r =>
          have hv : r < 0 ∨ r.toNat < ds.length := by
            have := hval.1
            simp only [opValid, Bool.or_eq_true, decide_eq_true_eq] at this
            exact this
          exact registryInv_set_primary r ds hinv hv
      have hrun : runOps (op :: rest) ds = runOps rest (applyOp op ds) := rfl
      rw [hrun]
      exact ih (applyOp op ds) hstep hval.2
  exact general ops [] ⟨by simp [primaryCount], fun hx => absurd rfl hx⟩ h

/-- Operations used by the C1 witness: add two domains, re-target the
primary, then remove it. -/
def demoOps : List RegistryOp :=
  [.add { domain := str "a.com", auth_mode := .auto,
          custom_header_name := [], custom_header_value := [] },
   .add { domain := str "b.com", auth_mode := .auto,
          custom_header_name := [], custom_header_value := [] },
   .setPrimary 1,
   .remove 1]

/-- C1 witness: the invariant holds after a concrete valid trace. -/
theorem registry_primary_invariant_witness :
    validTrace demoOps [] = true ∧ registryInv (runOps demoOps []) :=
  ⟨by decide, registry_primary_invariant demoOps (by decide)⟩

/-- The explicit shape of `setPrimaryList` at a valid index: every entry
before and after the target keeps all its fields but has `is_primary`
cleared, and exactly the target gets `is_primary := true`. -/
theorem setPrimaryList_eq (n : Nat) (ds : List DomainEntry)
    (h : n < ds.length) :
    setPrimaryList n ds =
      clearPrimaries (ds.take n) ++
        { ds.get ⟨n, h⟩ with is_primary := true } :: clearPrimaries (ds.drop (n + 1)) := by
  induction ds generalizing n with
  | nil => simp at h
  | cons e t ih =>
    cases n with
    | zero => simp [setPrimaryList, clearPrimaries]
    | succ m =>
      have hm : m < t.length := by simpa using h
      simp only [setPrimaryList, List.take_succ_cons, List.drop_succ_cons,
        List.get_cons_succ, clearPrimaries, List.map_cons, List.cons_append]
      have := ih m hm
      simp only [clearPrimaries] at this
      rw [this]

/-- C5.  A `_set_primary` call with no selected row (the only way the
target can be absent, since the table selection is bounded by the registry
size) leaves the registry completely unchanged; with a valid selected row,
`is_primary` is cleared on all entries and set only on the target, all
other fields untouched. -/
theorem set_primary_characterization :
    (∀ (ds : List DomainEntry) (row : Int), row < 0 → set_primary row ds = ds) ∧
    (∀ (ds : List DomainEntry) (row : Int) (h0 : 0 ≤ row)
        (h : row.toNat < ds.length),
      set_primary row ds =
        clearPrimaries (ds.take row.toNat) ++
          { ds.get ⟨row.toNat, h⟩ with is_primary := true } ::
            clearPrimaries (ds.drop (row.toNat + 1))) := by
  constructor
  · intro ds row hneg
    rw [set_primary, if_pos hneg]
  · intro ds row h0 h
    rw [set_primary, if_neg (by omega)]
    exact setPrimaryList_eq row.toNat ds h

/-- Two-entry registry used by the C5 witness. -/
def demoPair : List DomainEntry :=
  [sampleExampleEntry,
   { domain := str "b.com", is_primary := false, auth_mode := .auto,
     custom_header_name := [], custom_header_value := [], session := emptySession }]

/-- C5 witness: no selection leaves a concrete registry unchanged, and
selecting row 1 makes exactly that entry primary. -/
theorem set_primary_characterization_witness :
    set_primary (-1) demoPair = demoPair ∧
    set_primary 1 demoPair =
      clearPrimaries (demoPair.take 1) ++
        { demoPair.get ⟨1, by decide⟩ with is_primary := true } ::
          clearPrimaries (demoPair.drop 2) :=
  ⟨set_primary_characterization.1 demoPair (-1) (by decide),
   set_primary_characterization.2 demoPair 1 (by decide) (by decide)⟩

/-! ## Loop-prevention marker (C3) -/

theorem strIn_of_parts (pat l r : Str) : strIn pat (l ++ pat ++ r) = true := by
  induction l with
  | nil =>
    cases hp : pat with
    | nil => cases r with
      | nil => rfl
      | cons c t => rfl
    | cons p pt =>
      subst hp
      have hpre : (p :: pt).isPrefixOf ((p :: pt) ++ r) = true := by
        rw [List.isPrefixOf_iff_prefix]
        exact List.prefix_append _ _
      rw [List.cons_append] at hpre
      rw [List.nil_append, List.cons_append]
      show ((p :: pt).isPrefixOf (p :: (pt ++ r)) || strIn (p :: pt) (pt ++ r)) = true
      rw [hpre]
      simp
  | cons c lt ih =>
    rw [List.cons_append, List.cons_append]
    show (pat.isPrefixOf (c :: (lt ++ pat ++ r)) || strIn pat (lt ++ pat ++ r)) = true
    rw [ih]
    simp

theorem mem_joinSep_parts (sep a : Str) (xs : List Str) (h : a ∈ xs) :
    ∃ l r, joinSep sep xs = l ++ a ++ r := by
  induction xs with
  | nil => cases h
  | cons x t ih =>
    cases t with
    | nil =>
      have hx : a = x := by simpa using h
      exact ⟨[], [], by simp [joinSep, hx]⟩
    | cons y t2 =>
      rcases List.mem_cons.mp h with hax | hmem
      · exact ⟨[], sep ++ joinSep sep (y :: t2), by simp [joinSep, hax, List.append_assoc]⟩
      · obtain ⟨l, r, hlr⟩ := ih hmem
        exact ⟨x ++ sep ++ l, r, by simp [joinSep, hlr, List.append_assoc]⟩

theorem strIn_buildHttpMessage_of_mem (a : Str) (headers : List Str) (body : Str)
    (h : a ∈ headers) : strIn a (buildHttpMessage headers body) = true := by
  obtain ⟨l, r, hlr⟩ := mem_joinSep_parts (str "\r\n") a headers h
  rw [buildHttpMessage, hlr]
  have hassoc : l ++ a ++ r ++ str "\r\n\r\n" ++ body =
      l ++ a ++ (r ++ (str "\r\n\r\n" ++ body)) := by
    simp [List.append_assoc]
  rw [hassoc]
  exact strIn_of_parts a l (r ++ (str "\r\n\r\n" ++ body))

/-- The header list built by `_build_mirrored_request` always ends with the
marker header. -/
theorem build_headers_decomp (request_str : Str) (e : DomainEntry) :
    ∃ l, (build_mirrored_request request_str e).1 = l ++ [markerHeader] := by
  rw [build_mirrored_request]
  cases splitAllSub (splitReqSections request_str).2.2 (splitReqSections request_str).1 with
  | nil => exact ⟨[], rfl⟩
  | cons first rest => exact ⟨_, rfl⟩

/-- A mirror dispatch never starts from `processHttpMessage` when the
request text contains the marker literal. -/
theorem dispatches_false_of_marker (messageIsRequest : Bool) (request_str : Str)
    (entry : Option DomainEntry) (should_mirror mirror_enabled : Bool)
    (mirrors : List DomainEntry) (request_present response_present can_start : Bool)
    (h : strIn markerHeader request_str = true) :
    processHttpMessage_dispatches messageIsRequest request_str entry should_mirror
      mirror_enabled mirrors request_present response_present can_start = false := by
  cases messageIsRequest with
  | true => rfl
  | false =>
    cases entry with
    | none => rfl
    | some e => simp [processHttpMessage_dispatches, h]

/-- C3.  Every rewritten request produced by `_build_mirrored_request` ends
with the internal marker header, the serialized message therefore contains
the marker's literal content, and any observed request containing that
literal is never mirrored again: the `processHttpMessage` path decides not
to dispatch, by a strict literal-content containment check rather than a
refresh/login pattern match. -/
theorem marker_loop_prevention :
    (∀ (request_str : Str) (e : DomainEntry),
      ((build_mirrored_request request_str e).1).getLast? = some markerHeader) ∧
    (∀ (request_str : Str) (e : DomainEntry),
      strIn markerHeader
        (buildHttpMessage (build_mirrored_request request_str e).1
          (build_mirrored_request request_str e).2) = true) ∧
    (∀ (messageIsRequest : Bool) (request_str : Str) (entry : Option DomainEntry)
        (should_mirror mirror_enabled : Bool) (mirrors : List DomainEntry)
        (request_present response_present can_start : Bool),
      strIn markerHeader request_str = true →
      processHttpMessage_dispatches messageIsRequest request_str entry should_mirror
        mirror_enabled mirrors request_present response_present can_start = false) := by
  refine ⟨fun request_str e => ?_, fun request_str e => ?_, dispatches_false_of_marker⟩
  · obtain ⟨l, hl⟩ := build_headers_decomp request_str e
    rw [hl]
    exact List.getLast?_concat _
  · obtain ⟨l, hl⟩ := build_headers_decomp request_str e
    refine strIn_buildHttpMessage_of_mem _ _ _ ?_
    rw [hl]
    exact List.mem_append_right l (by simp)

/-- C3 witness: a concretely built request ends with the marker, its
serialization contains the marker, and feeding that serialization back to
the listener yields no dispatch even with every other switch enabled. -/
theorem marker_loop_prevention_witness :
    ((build_mirrored_request (str "GET / HTTP/1.1\r\nHost: a.com\r\n\r\n")
        sampleExampleEntry).1).getLast? = some markerHeader ∧
    processHttpMessage_dispatches false
      (buildHttpMessage
        (build_mirrored_request (str "GET / HTTP/1.1\r\nHost: a.com\r\n\r\n")
          sampleExampleEntry).1
        (build_mirrored_request (str "GET / HTTP/1.1\r\nHost: a.com\r\n\r\n")
          sampleExampleEntry).2)
      (some sampleExampleEntry) true true [sampleExampleEntry] true true true = false :=
  ⟨marker_loop_prevention.1 (str "GET / HTTP/1.1\r\nHost: a.com\r\n\r\n")
      sampleExampleEntry,
   marker_loop_prevention.2.2 false _ (some sampleExampleEntry) true true
      [sampleExampleEntry] true true true
      (marker_loop_prevention.2.1 (str "GET / HTTP/1.1\r\nHost: a.com\r\n\r\n")
        sampleExampleEntry)⟩

/-! ## No credentials under auth mode None (C8) -/

/-- Whether a header line is, case-insensitively, an Authorization or a
Cookie header — the same tests `_build_mirrored_request` itself uses. -/
def credentialHeader (h : Str) : Bool :=
  (str "authorization:").isPrefixOf (toLowerStr h) ||
    (str "cookie:").isPrefixOf (toLowerStr h)

theorem credentialHeader_host (s : Str) :
    credentialHeader (str "Host: " ++ s) = false := rfl

theorem credentialHeader_marker : credentialHeader markerHeader = false := rfl

/-- Every header emitted by the rewrite loop for an `AUTH_NONE` target is
neither an Authorization nor a Cookie header. -/
theorem rewriteLoop_noAuth_safe (e : DomainEntry) (he : e.auth_mode = .noAuth)
    (l : List Str) : ∀ h ∈ (rewriteLoop e l).1, credentialHeader h = false := by
  induction l with
  | nil => intro h hmem; simp [rewriteLoop] at hmem
  | cons x t ih =>
    intro h hmem
    rw [rewriteLoop] at hmem
    by_cases g1 : (str "host:").isPrefixOf (toLowerStr x) = true
    · rw [if_pos g1] at hmem
      rcases List.mem_cons.mp hmem with hx | hmem2
      · subst hx; exact credentialHeader_host e.domain
      · exact ih h hmem2
    · rw [if_neg g1] at hmem
      by_cases g2 : (str "authorization:").isPrefixOf (toLowerStr x) = true
      · rw [if_pos g2] at hmem
        rw [he] at hmem
        simp only [bearerInScope, show (decide (AuthMode.noAuth = .auto) ||
            decide (AuthMode.noAuth = .bearerOnly) ||
            decide (AuthMode.noAuth = .both)) = false from rfl,
          Bool.false_and, Bool.false_eq_true, if_false, ite_false] at hmem
        simp only [show (AuthMode.noAuth = AuthMode.noAuth) = True by simp,
          if_true, ite_true, List.nil_append] at hmem
        exact ih h hmem
      · rw [if_neg g2] at hmem
        by_cases g3 : (str "cookie:").isPrefixOf (toLowerStr x) = true
        · rw [if_pos g3] at hmem
          rw [he] at hmem
          simp only [cookiesInScope, show (decide (AuthMode.noAuth = .auto) ||
              decide (AuthMode.noAuth = .cookiesOnly) ||
              decide (AuthMode.noAuth = .both)) = false from rfl,
            Bool.false_and, Bool.false_eq_true, if_false, ite_false] at hmem
          simp only [show (AuthMode.noAuth = AuthMode.noAuth) = True by simp,
            if_true, ite_true, List.nil_append] at hmem
          exact ih h hmem
        · rw [if_neg g3] at hmem
          have hsafe : credentialHeader x = false := by
            rw [credentialHeader, Bool.eq_false_iff.mpr g2, Bool.eq_false_iff.mpr g3]
            rfl
          by_cases g4 : (toLowerStr e.custom_header_name ++ [':']).isPrefixOf
              (toLowerStr x) = true
          · rw [if_pos g4] at hmem
            rw [he] at hmem
            simp only [show (decide (AuthMode.noAuth = AuthMode.custom) &&
                !e.custom_header_value.isEmpty) = false from by simp,
              Bool.false_eq_true, if_false, ite_false, List.cons_append,
              List.nil_append] at hmem
            rcases List.mem_cons.mp hmem with hx | hmem2
            · subst hx; exact hsafe
            · exact ih h hmem2
          · rw [if_neg g4] at hmem
            rcases List.mem_cons.mp hmem with hx | hmem2
            · subst hx; exact hsafe
            · exact ih h hmem2

/-- C8.  For every original request and every target entry whose auth mode
is None, the rewritten request contains no Authorization and no Cookie
header after the request line, regardless of the original headers: existing
credential headers are dropped and none are appended. -/
theorem build_noAuth_no_credentials (request_str : Str) (e : DomainEntry)
    (he : e.auth_mode = .noAuth) :
    ∀ h ∈ ((build_mirrored_request request_str e).1).tail,
      credentialHeader h = false := by
  rw [build_mirrored_request]
  cases splitAllSub (splitReqSections request_str).2.2 (splitReqSections request_str).1 with
  | nil => intro h hmem; simp at hmem
  | cons first rest =>
    intro h hmem
    rw [he] at hmem
    simp only [show bearerInScope .noAuth = false from rfl,
      show cookiesInScope .noAuth = false from rfl,
      show (decide (AuthMode.noAuth = AuthMode.custom)) = false from rfl,
      Bool.false_and, Bool.false_eq_true, if_false, ite_false,
      List.cons_append, List.tail_cons] at hmem
    rcases List.mem_append.mp hmem with hmem2 | hmem2
    · exact rewriteLoop_noAuth_safe e he rest h hmem2
    · have hx : h = markerHeader := by simpa using hmem2
      subst hx
      exact credentialHeader_marker

/-- C8 witness: rewriting a concrete request that carries both credential
headers for an `AUTH_NONE` target leaves no credential header in the output
tail. -/
theorem build_noAuth_no_credentials_witness :
    ((build_mirrored_request
        (str "GET / HTTP/1.1\r\nHost: a.com\r\nCookie: sid=1\r\nAuthorization: Bearer x\r\n\r\n")
        { domain := str "b.com", is_primary := false, auth_mode := .noAuth,
          custom_header_name := [], custom_header_value := [],
          session := emptySession }).1).tail.any credentialHeader = false := by
  rw [List.any_eq_false]
  intro x hx
  have hsafe := build_noAuth_no_credentials
    (str "GET / HTTP/1.1\r\nHost: a.com\r\nCookie: sid=1\r\nAuthorization: Bearer x\r\n\r\n")
    { domain := str "b.com", is_primary := false, auth_mode := .noAuth,
      custom_header_name := [], custom_header_value := [],
      session := emptySession } rfl x hx
  simp [hsafe]

/-! ## Mirror result assembly (C2) -/

/-- The response records contributed by the successful mirrors, in order. -/
def successRecords (hash : Str → Str)
    (mirrors : List (DomainEntry × TransportOutcome)) : List (Str × ResponseRecord) :=
  mirrors.filterMap (fun p =>
    match p.2 with
    | .success status body =>
      some (p.1.domain,
        { hash := hash body, status := status, size := body.length, body := body })
    | _ => none)

/-- The hashes appended by the successful mirrors, in order. -/
def successHashes (hash : Str → Str)
    (mirrors : List (DomainEntry × TransportOutcome)) : List Str :=
  mirrors.filterMap (fun p =>
    match p.2 with
    | .success _ body => some (hash body)
    | _ => none)

theorem dictInsert_of_not_mem (k : Str) (v : ResponseRecord)
    (m : List (Str × ResponseRecord)) (h : k ∉ m.map Prod.fst) :
    dictInsert k v m = m ++ [(k, v)] := by
  rw [dictInsert, if_neg]
  intro hany
  rw [List.any_eq_true] at hany
  obtain ⟨p, hp, hk⟩ := hany
  rw [decide_eq_true_eq] at hk
  exact h (hk ▸ List.mem_map_of_mem Prod.fst hp)

theorem successRecords_keys (hash : Str → Str)
    (mirrors : List (DomainEntry × TransportOutcome)) :
    (successRecords hash mirrors).map Prod.fst =
      (mirrors.filter (fun p => p.2.isSuccess)).map (fun p => p.1.domain) := by
  induction mirrors with
  | nil => rfl
  | cons p rest ih =>
    cases p with
    | mk entry outcome =>
      cases outcome <;>
        simp [successRecords, List.filterMap_cons, List.filter_cons,
          TransportOutcome.isSuccess, ih, successRecords] at ih ⊢ <;> exact ih

theorem successRecords_hashes (hash : Str → Str)
    (mirrors : List (DomainEntry × TransportOutcome)) :
    (successRecords hash mirrors).map (fun p => p.2.hash) =
      successHashes hash mirrors := by
  induction mirrors with
  | nil => rfl
  | cons p rest ih =>
    cases p with
    | mk entry outcome =>
      cases outcome <;>
        simp [successRecords, successHashes, List.filterMap_cons, ih] at ih ⊢ <;>
        exact ih

theorem success_nil_of_all_fail (hash : Str → Str)
    (mirrors : List (DomainEntry × TransportOutcome))
    (h : ∀ p ∈ mirrors, p.2.isSuccess = false) :
    successRecords hash mirrors = [] ∧ successHashes hash mirrors = [] := by
  induction mirrors with
  | nil => exact ⟨rfl, rfl⟩
  | cons p rest ih =>
    have hp := h p (by simp)
    have hrest := ih (fun q hq => h q (by simp [hq]))
    cases p with
    | mk entry outcome =>
      cases outcome <;>
        simp [TransportOutcome.isSuccess] at hp <;>
        simpa [successRecords, successHashes, List.filterMap_cons] using hrest

/-- The mirror loop appends exactly the successful mirrors' records and
hashes, provided all involved keys are distinct. -/
theorem mirrorLoop_spec (hash : Str → Str) :
    ∀ (mirrors : List (DomainEntry × TransportOutcome))
      (responses : List (Str × ResponseRecord)) (hashes : List Str),
      (responses.map Prod.fst ++ mirrors.map (fun p => p.1.domain)).Nodup →
      mirrorLoop hash mirrors responses hashes =
        (responses ++ successRecords hash mirrors,
         hashes ++ successHashes hash mirrors) := by
  intro mirrors
  induction mirrors with
  | nil =>
    intro responses hashes _
    simp [mirrorLoop, successRecords, successHashes]
  | cons p rest ih =>
    intro responses hashes hnd
    cases p with
    | mk entry outcome =>
      cases outcome with
      | success status body =>
        have hmemdom : entry.domain ∉ responses.map Prod.fst := by
          intro hmem
          have hdisj := List.disjoint_of_nodup_append hnd
          exact hdisj hmem (by simp)
        rw [mirrorLoop, dictInsert_of_not_mem _ _ _ hmemdom]
        have hnd2 : ((responses ++
            [(entry.domain,
              ({ hash := hash body, status := status, size := body.length,
                 body := body } : ResponseRecord))]).map Prod.fst ++
            rest.map (fun p => p.1.domain)).Nodup := by
          simp only [List.map_append, List.map_cons, List.map_nil,
            List.append_assoc, List.singleton_append]
          simpa using hnd
        rw [ih _ _ hnd2]
        simp [successRecords, successHashes, List.filterMap_cons, List.append_assoc]
      | transportError msg =>
        have hnd2 : (responses.map Prod.fst ++ rest.map (fun p => p.1.domain)).Nodup := by
          refine List.Nodup.sublist ?_ hnd
          exact List.Sublist.append_left (List.sublist_cons_self _ _) _
        have hstep : mirrorLoop hash ((entry, TransportOutcome.transportError msg) :: rest)
            responses hashes = mirrorLoop hash rest responses hashes := rfl
        rw [hstep, ih _ _ hnd2]
        simp [successRecords, successHashes, List.filterMap_cons]
      | noResponseObj =>
        have hnd2 : (responses.map Prod.fst ++ rest.map (fun p => p.1.domain)).Nodup := by
          refine List.Nodup.sublist ?_ hnd
          exact List.Sublist.append_left (List.sublist_cons_self _ _) _
        have hstep : mirrorLoop hash ((entry, TransportOutcome.noResponseObj) :: rest)
            responses hashes = mirrorLoop hash rest responses hashes := rfl
        rw [hstep, ih _ _ hnd2]
        simp [successRecords, successHashes, List.filterMap_cons]
      | emptyResponse =>
        have hnd2 : (responses.map Prod.fst ++ rest.map (fun p => p.1.domain)).Nodup := by
          refine List.Nodup.sublist ?_ hnd
          exact List.Sublist.append_left (List.sublist_cons_self _ _) _
        have hstep : mirrorLoop hash ((entry, TransportOutcome.emptyResponse) :: rest)
            responses hashes = mirrorLoop hash rest responses hashes := rfl
        rw [hstep, ih _ _ hnd2]
        simp [successRecords, successHashes, List.filterMap_cons]

/-- C2.  For every dispatched exchange (one where `_mirror_request_v2`
actually assembles a result), a mirror whose transport attempt fails
(error, missing or empty response) is omitted from the responses map while
dispatch continues for the remaining mirrors: the response keys are exactly
the primary host followed by the successful mirrors' domains in order.  The
`match` field is true iff the set of distinct body hashes across all present
responses has exactly one element, and when every mirror fails the map holds
only the primary domain and `match` is true.  (The key-distinctness
hypothesis is the Registry's duplicate-rejection guarantee.) -/
theorem mirror_result_assembly (hash : Str → Str) (refresh_patterns : List Str)
    (primary_host method path : Str) (primary_status : Nat) (primary_body : Str)
    (mirrors : List (DomainEntry × TransportOutcome)) (r : MirrorResult)
    (hnd : (primary_host :: mirrors.map (fun p => p.1.domain)).Nodup)
    (hr : mirror_request_v2 hash refresh_patterns primary_host method path
        primary_status primary_body mirrors = some r) :
    r.responses.map Prod.fst =
      primary_host ::
        (mirrors.filter (fun p => p.2.isSuccess)).map (fun p => p.1.domain) ∧
    (r.matchField = true ↔
      (r.responses.map (fun p => p.2.hash)).dedup.length = 1) ∧
    ((∀ p ∈ mirrors, p.2.isSuccess = false) →
      r.responses = [(primary_host,
        { hash := hash primary_body, status := primary_status,
          size := primary_body.length, body := primary_body })] ∧
      r.matchField = true) := by
  by_cases hg : (refresh_patterns.any fun p => strIn p (toLowerStr path)) = true
  · rw [mirror_request_v2, if_pos hg] at hr
    exact absurd hr (by simp)
  · rw [mirror_request_v2, if_neg hg] at hr
    have hr2 : some ((⟨method, path,
        decide (((mirrorLoop hash mirrors
          [(primary_host, ⟨hash primary_body, primary_status,
            primary_body.length, primary_body⟩)]
          [hash primary_body]).2).dedup.length = 1),
        (mirrorLoop hash mirrors
          [(primary_host, ⟨hash primary_body, primary_status,
            primary_body.length, primary_body⟩)]
          [hash primary_body]).1⟩ : MirrorResult)) = some r := hr
    have hloop := mirrorLoop_spec hash mirrors
      [(primary_host, ⟨hash primary_body, primary_status,
        primary_body.length, primary_body⟩)]
      [hash primary_body] (by simpa using hnd)
    injection hr2 with heq
    subst heq
    simp only [hloop]
    refine ⟨?_, ?_, ?_⟩
    · simp [successRecords_keys]
    · rw [decide_eq_true_eq]
      have hmap : (([(primary_host,
          (⟨hash primary_body, primary_status,
            primary_body.length, primary_body⟩ : ResponseRecord))] ++
          successRecords hash mirrors).map (fun p => p.2.hash)) =
          [hash primary_body] ++ successHashes hash mirrors := by
        simp [successRecords_hashes]
      rw [hmap]
    · intro hfail
      obtain ⟨hsr, hsh⟩ := success_nil_of_all_fail hash mirrors hfail
      rw [hsr, hsh]
      simp

/-- Mirror outcomes used by the C2 witness: the first mirror times out, the
second succeeds with a body different from the primary's. -/
def demoMirrors : List (DomainEntry × TransportOutcome) :=
  [({ domain := str "b.com", is_primary := false, auth_mode := .auto,
      custom_header_name := [], custom_header_value := [],
      session := emptySession }, .transportError (str "timeout")),
   ({ domain := str "c.com", is_primary := false, auth_mode := .auto,
      custom_header_name := [], custom_header_value := [],
      session := emptySession }, .success 200 (str "Q"))]

/-- The result `_mirror_request_v2` assembles for `demoMirrors`. -/
def demoResult : MirrorResult :=
  { method := str "GET", path := str "/x", matchField := false,
    responses := [(str "a.com",
        { hash := str "P", status := 200, size := 1, body := str "P" }),
      (str "c.com",
        { hash := str "Q", status := 200, size := 1, body := str "Q" })] }

/-- C2 witness: on the concrete exchange the timed-out mirror is omitted,
the successful one is present, and `match` is false exactly because two
distinct hashes are present. -/
theorem mirror_result_assembly_witness :
    mirror_request_v2 id [] (str "a.com") (str "GET") (str "/x") 200 (str "P")
      demoMirrors = some demoResult ∧
    demoResult.responses.map Prod.fst = [str "a.com", str "c.com"] ∧
    (demoResult.matchField = true ↔
      (demoResult.responses.map (fun p => p.2.hash)).dedup.length = 1) :=
  ⟨by decide,
   ((mirror_result_assembly id [] (str "a.com") (str "GET") (str "/x") 200 (str "P")
      demoMirrors demoResult (by decide) (by decide)).1).trans (by decide),
   (mirror_result_assembly id [] (str "a.com") (str "GET") (str "/x") 200 (str "P")
      demoMirrors demoResult (by decide) (by decide)).2.1⟩

end DomainMirror
